import Mathlib

/-!
Verification development for the PetPal conversational agent
(repository `for_her_b`, files `chat.py` and `models.py`).

The Python code is shallowly embedded: every stateful method of
`AsyncPetPalChatbot` becomes a pure Lean function from the relevant state
to the new state (Python mutates the session objects in place; here the
updated record is returned).  The external language-model call is the only
fallible step of `chat`; it is modelled by an `Option String` parameter
(`none` = any exception raised by the call).
-/

namespace PetPal

/-! ### Python string primitives

Counterparts of the Python string operations used by `chat.py`:
`in` (substring test), `str.split()` (whitespace split, empties dropped),
`str.strip(".,!?")`, `str.title()`, `str.isalpha()`, `str.replace("'","")`,
and truthiness of an optional string (`None` and `""` are falsy).
-/

/-- Substring test on character lists: Python `need in hay`. -/
def charsContain (hay need : List Char) : Bool :=
  match hay with
  | [] => need.isEmpty
  | _ :: t => need.isPrefixOf hay || charsContain t need

/-- Python `sub in s` for strings. -/
def strContains (s sub : String) : Bool :=
  charsContain s.data sub.data

/-- Python `s.lower()` (ASCII-adequate, like the messages involved). -/
def pyLower (s : String) : String :=
  String.mk (s.data.map Char.toLower)

/-- Helper for `pySplitWs`: the accumulator holds the current word
reversed. -/
def splitWsAux : List Char → List Char → List String
  | [], acc => if acc.isEmpty then [] else [String.mk acc.reverse]
  | c :: t, acc =>
    if c.isWhitespace then
      if acc.isEmpty then splitWsAux t []
      else String.mk acc.reverse :: splitWsAux t []
    else splitWsAux t (c :: acc)

/-- Python `s.split()`: split on whitespace runs, dropping empty pieces. -/
def pySplitWs (s : String) : List String :=
  splitWsAux s.data []

/-- The punctuation characters of Python `s.strip(".,!?")` in `chat.py`. -/
def stripChars : List Char := ['.', ',', '!', '?']

/-- Python `s.strip(".,!?")`: remove the given characters from both ends. -/
def pyStripPunct (s : String) : String :=
  String.mk ((((s.data.dropWhile (fun c => stripChars.contains c)).reverse.dropWhile
      (fun c => stripChars.contains c)).reverse))

/-- Helper for `pyTitle`: the Bool records whether the previous character
was alphabetic. -/
def pyTitleAux : List Char → Bool → List Char
  | [], _ => []
  | c :: t, prevAlpha =>
    (if c.isAlpha then (if prevAlpha then c.toLower else c.toUpper) else c)
      :: pyTitleAux t c.isAlpha

/-- Python `s.title()`: first letter of each alphabetic run uppercased,
the rest lowercased. -/
def pyTitle (s : String) : String :=
  String.mk (pyTitleAux s.data false)

/-- Python `s.isalpha()`: non-empty and every character alphabetic. -/
def pyIsAlpha (s : String) : Bool :=
  !s.data.isEmpty && s.data.all Char.isAlpha

/-- Python `s.replace("'", "")`: drop every apostrophe (codepoint 39). -/
def dropApostrophes (s : String) : String :=
  String.mk (s.data.filter (fun c => !(c == Char.ofNat 39)))

/-- Python truthiness of `Optional[str]`: `None` and `""` are falsy.
`chat.py` guards name extraction and the fallback name part with
`if [not] context.user_profile.name`. -/
def nameUnset : Option String → Bool
  | none => true
  | some s => s.length == 0

/-! ### Data model (`models.py`) -/

inductive ConversationStage where
  | GREETING | GETTING_NAME | BUILDING_RAPPORT | STORY_MODE
  | COMPLIMENT_MODE | INTERACTIVE_MODE | CLOSING
deriving DecidableEq

inductive UserMood where
  | HAPPY | SHY | EXCITED | NEUTRAL | ENGAGED | QUIET
deriving DecidableEq

inductive PetPreference where
  | DOGS | CATS | BOTH | OTHER | UNKNOWN
deriving DecidableEq

inductive ResponseType where
  | STORY | COMPLIMENT | QUESTION | ENCOURAGEMENT | FLIRT | GENERAL_CHAT
deriving DecidableEq

/-- The `.value` string of `ConversationStage` (a `str` Enum in Python). -/
def stageValue : ConversationStage → String
  | .GREETING => "greeting"
  | .GETTING_NAME => "getting_name"
  | .BUILDING_RAPPORT => "building_rapport"
  | .STORY_MODE => "story_mode"
  | .COMPLIMENT_MODE => "compliment_mode"
  | .INTERACTIVE_MODE => "interactive_mode"
  | .CLOSING => "closing"

/-- The `.value` string of `UserMood`. -/
def moodValue : UserMood → String
  | .HAPPY => "happy"
  | .SHY => "shy"
  | .EXCITED => "excited"
  | .NEUTRAL => "neutral"
  | .ENGAGED => "engaged"
  | .QUIET => "quiet"

/-- The `.value` string of `PetPreference`. -/
def prefValue : PetPreference → String
  | .DOGS => "dogs"
  | .CATS => "cats"
  | .BOTH => "both"
  | .OTHER => "other"
  | .UNKNOWN => "unknown"

/-- `models.UserProfile` (pydantic defaults become field defaults). -/
structure UserProfile where
  name : Option String := none
  pet_preference : PetPreference := PetPreference.UNKNOWN
  personality_traits : List String := []
  interests_mentioned : List String := []
  compliments_received : List String := []
  stories_heard : List String := []
  response_style : String := "mixed"
  engagement_level : Int := 5
deriving DecidableEq

/-- `models.ConversationContext`. -/
structure ConversationContext where
  stage : ConversationStage := ConversationStage.GREETING
  user_profile : UserProfile := {}
  current_mood : UserMood := UserMood.NEUTRAL
  messages_count : Nat := 0
  last_response_type : Option ResponseType := none
  session_id : String
  conversation_goals : List String :=
    ["make_her_smile", "build_connection", "share_pet_stories",
     "give_genuine_compliments", "create_memorable_experience"]
deriving DecidableEq

/-- A fresh `UserProfile()` as created by `get_or_create_session`. -/
def freshUserProfile : UserProfile := {}

/-- The fresh `ConversationContext` that `get_or_create_session` builds. -/
def freshContext (sid : String) : ConversationContext :=
  { session_id := sid }

/-! ### Content library (`_initialize_story_database`, lines 89–154) -/

/-- One entry of `story_db.pet_stories` (a `Dict[str, str]` in Python). -/
structure Story where
  id : String
  story : String
  theme : String
  compliment_hook : String
deriving DecidableEq

/-- The seven stories of `_initialize_story_database`. -/
def petStories : List Story :=
  [{ id := "golden_coffee",
     story := "There\x27s this golden retriever named Max who learned to bring his owner coffee every morning. He\x27d gently carry the mug in his mouth without spilling a drop! The owner said Max could sense exactly when she needed that extra boost of love.",
     theme := "loyalty",
     compliment_hook := "thoughtful_caring" },
   { id := "rescue_luna",
     story := "I heard about a rescue cat named Luna who was so shy at first, but she chose one special person at the shelter and wouldn\x27t leave their side. The staff said she had incredible intuition about who had the kindest heart.",
     theme := "selective_love",
     compliment_hook := "special_energy" },
   { id := "therapy_bella",
     story := "There\x27s a therapy dog named Bella who visits hospitals, and she always knows exactly which patients need extra cuddles. The nurses say she has this amazing ability to sense people\x27s emotions and comfort them.",
     theme := "emotional_intelligence",
     compliment_hook := "comforting_presence" },
   { id := "artist_oliver",
     story := "A cat named Oliver used to bring his owner little \x27gifts\x27 every day - not mice, but flowers from the garden! He\x27d carefully pick the prettiest ones, like he knew his human deserved beautiful things.",
     theme := "appreciation",
     compliment_hook := "deserving_beauty" },
   { id := "painter_collie",
     story := "There\x27s this border collie who learned to paint! His owner taught him to hold brushes, and his artwork actually sells for charity. The amazing part? His paintings are always in warm, happy colors.",
     theme := "creativity",
     compliment_hook := "artistic_soul" },
   { id := "reading_cat",
     story := "I know a cat named Whiskers who sits with his owner every evening while she reads. He purrs so contentedly, like he\x27s actually listening to the stories! The owner swears he has favorite books.",
     theme := "companionship",
     compliment_hook := "thoughtful_presence" },
   { id := "dancing_parrot",
     story := "There\x27s a parrot named Rio who dances to music with perfect rhythm! But the sweetest part is how he only dances to happy songs - he seems to know when his family needs cheering up.",
     theme := "joy_bringing",
     compliment_hook := "natural_happiness" }]

/-- The ids of the story library, in library order. -/
def storyIds : List String := petStories.map (fun s => s.id)

/-! ### Profile extractor (`update_user_profile`, lines 167–227)

The Python method fetches the session context and mutates
`context.user_profile` in place; here it is a function
`UserProfile → String → UserProfile`, written as three steps in the
source order: name extraction, pet preference, engagement update.
-/

/-- `name_patterns` (line 174): each cue phrase paired with the word
offset from the matched position to the name token. -/
def namePatterns : List (String × Nat) :=
  [("name is", 2), ("call me", 2), ("i\x27m", 1), ("im", 1),
   ("my name\x27s", 2), ("they call me", 3)]

/-- Index of the first word `w` of `words` such that every word of the cue
phrase is a substring of `w.lower()` — the Python inner loop
`for i, word in enumerate(words): if all(pw in word.lower() for pw in
pattern_words)`, which stops at the first such `i`. -/
def findCueIdx (words patternWords : List String) (i : Nat) : Option Nat :=
  match words with
  | [] => none
  | w :: t =>
    if patternWords.all (fun pw => strContains (pyLower w) pw) then some i
    else findCueIdx t patternWords (i + 1)

/-- One iteration of the pattern loop of name extraction (lines 179–196):
returns the accepted name, or `none` when this cue yields nothing.  Note
that the Python loop breaks at the first word position whose lowercase
form contains every word of the cue phrase, whether or not the candidate
token there is accepted. -/
def tryNamePattern (messageLower : String) (words : List String)
    (pat : String) (offset : Nat) : Option String :=
  if strContains messageLower pat then
    match findCueIdx words (pySplitWs pat) 0 with
    | some i =>
      if i + offset < words.length then
        let potential := pyTitle (pyStripPunct (words.getD (i + offset) ""))
        if 1 < potential.length ∧ pyIsAlpha (dropApostrophes potential) = true
        then some potential else none
      else none
    | none => none
  else none

/-- The pattern loop: first cue that accepts a name wins
(`if context.user_profile.name: break`). -/
def extractNameLoop (messageLower : String) (words : List String) :
    List (String × Nat) → Option String
  | [] => none
  | (pat, offset) :: rest =>
    match tryNamePattern messageLower words pat offset with
    | some n => some n
    | none => extractNameLoop messageLower words rest

/-- Name extraction over the whole pattern list (lines 172–196). -/
def extractName (message : String) : Option String :=
  extractNameLoop (pyLower message) (pySplitWs message) namePatterns

/-- Step 1 of `update_user_profile`: name extraction, attempted only when
the current name is falsy (`if not context.user_profile.name`). -/
def nameStep (p : UserProfile) (message : String) : UserProfile :=
  if nameUnset p.name then
    match extractName message with
    | some n => { p with name := some n }
    | none => p
  else p

/-- `dog_indicators` (line 199). -/
def dogIndicators : List String :=
  ["dog", "puppy", "golden retriever", "labrador", "poodle"]

/-- `cat_indicators` (line 200). -/
def catIndicators : List String :=
  ["cat", "kitten", "feline", "tabby", "persian"]

/-- `has_dog` (line 202). -/
def hasDogIndicator (message : String) : Bool :=
  dogIndicators.any (fun ind => strContains (pyLower message) ind)

/-- `has_cat` (line 203). -/
def hasCatIndicator (message : String) : Bool :=
  catIndicators.any (fun ind => strContains (pyLower message) ind)

/-- Step 2 of `update_user_profile`: pet preference (lines 205–210). -/
def prefStep (p : UserProfile) (message : String) : UserProfile :=
  if hasDogIndicator message && !hasCatIndicator message then
    { p with pet_preference := PetPreference.DOGS }
  else if hasCatIndicator message && !hasDogIndicator message then
    { p with pet_preference := PetPreference.CATS }
  else if hasDogIndicator message && hasCatIndicator message then
    { p with pet_preference := PetPreference.BOTH }
  else p

/-- `enthusiasm_indicators` (line 213). -/
def enthusiasmIndicators : List String :=
  ["!", "love", "amazing", "awesome", "wonderful", "cute", "adorable"]

/-- `question_indicators` (line 214). -/
def questionIndicators : List String :=
  ["?", "how", "what", "when", "where", "why"]

/-- `engagement_boost` (lines 216–224). -/
def engagementBoost (message : String) : Int :=
  (if 50 < message.length then (1 : Int) else 0)
  + (if enthusiasmIndicators.any (fun ind => strContains (pyLower message) ind)
     then 1 else 0)
  + (if questionIndicators.any (fun ind => strContains (pyLower message) ind)
     then 1 else 0)
  - (if message.length < 5 then 1 else 0)

/-- Step 3 of `update_user_profile`: clamp the boosted engagement level to
`[1, 10]` (lines 226–227: `max(1, min(10, ... + engagement_boost))`). -/
def engagementStep (p : UserProfile) (message : String) : UserProfile :=
  let newLevel := max 1 (min 10 (p.engagement_level + engagementBoost message))
  { p with engagement_level := newLevel }

/-- `update_user_profile` (lines 167–227), as a pure profile transformer. -/
def updateUserProfile (p : UserProfile) (message : String) : UserProfile :=
  engagementStep (prefStep (nameStep p message) message) message

/-- Folding `update_user_profile` over a list of inbound messages. -/
def applyMessages (p : UserProfile) (msgs : List String) : UserProfile :=
  msgs.foldl updateUserProfile p

/-! ### Stage selector (`determine_conversation_stage`, lines 352–363) -/

/-- `determine_conversation_stage`.  The `message` argument is taken by
the Python method but never used. -/
def determineConversationStage (context : ConversationContext)
    (_message : String) : ConversationStage :=
  if nameUnset context.user_profile.name && decide (context.messages_count < 3)
  then ConversationStage.GETTING_NAME
  else if context.messages_count < 5 then ConversationStage.BUILDING_RAPPORT
  else if context.messages_count % 6 = 0 then ConversationStage.STORY_MODE
  else if context.messages_count % 4 = 0 then ConversationStage.COMPLIMENT_MODE
  else ConversationStage.INTERACTIVE_MODE

/-! ### Story selector (`select_appropriate_story`, lines 229–265) -/

/-- The stories whose id is not in `stories_heard` (lines 231–234). -/
def unheardStories (p : UserProfile) : List Story :=
  petStories.filter (fun s => !(p.stories_heard.contains s.id))

/-- The Python idiom `xs = [x for x in xs if pred]; if xs: available = xs`:
narrow to the stories satisfying `pred`, keeping the broader list when the
narrowing is empty. -/
def narrowBy (l : List Story) (pred : Story → Bool) : List Story :=
  let f := l.filter pred
  if f.isEmpty then l else f

/-- Preference narrowing (lines 243–250): dog-text stories for `DOGS`,
cat-text stories for `CATS`, anything else unchanged. -/
def prefNarrow (pref : PetPreference) (l : List Story) : List Story :=
  if pref = PetPreference.DOGS then
    narrowBy l (fun s => strContains (pyLower s.story) "dog")
  else if pref = PetPreference.CATS then
    narrowBy l (fun s => strContains (pyLower s.story) "cat")
  else l

/-- Engagement narrowing (lines 253–257): when `engagement_level > 7`,
prefer the stories themed `creativity` or `joy_bringing`. -/
def engagementNarrow (eng : Int) (l : List Story) : List Story :=
  if 7 < eng then
    narrowBy l (fun s => s.theme == "creativity" || s.theme == "joy_bringing")
  else l

/-- The candidate list at the point of `available_stories[0]` (line 259):
unheard stories (whole library after a reset), then the two narrowings. -/
def storyCandidates (p : UserProfile) : List Story :=
  let base := if (unheardStories p).isEmpty then petStories else unheardStories p
  engagementNarrow p.engagement_level (prefNarrow p.pet_preference base)

/-- `select_appropriate_story`: returns the selected story (if any) and the
updated profile.  When every id has been heard, `stories_heard` is reset to
`[]` before selection (lines 236–240); the selected id is appended
(line 262). -/
def selectAppropriateStory (p : UserProfile) : Option Story × UserProfile :=
  let heard := if (unheardStories p).isEmpty then [] else p.stories_heard
  match (storyCandidates p).head? with
  | some s => (some s, { p with stories_heard := heard ++ [s.id] })
  | none => (none, { p with stories_heard := heard })

/-! ### Compliment selector (`generate_personalized_compliment`,
lines 267–300) -/

/-- `base_compliments` (lines 269–277). -/
def baseCompliments : List String :=
  ["You have that gentle energy that pets absolutely love - they can sense a kind heart from miles away! ðŸ¾",
   "Just like golden retrievers, you seem like the type of person who brings joy wherever you go âœ¨",
   "You remind me of those therapy animals who just know how to make everyone feel better ðŸ’•",
   "There\x27s something so graceful about you - like a cat who moves with perfect confidence ðŸŒŸ",
   "You have that trustworthy vibe that makes you the kind of person pets (and people) want to be around forever ðŸ’–",
   "Like the most loyal companion animals, you have this wonderful warmth about you ðŸŒ¸",
   "You seem like someone who would be chosen by the most selective rescue pets - they have excellent taste! ðŸ¦‹"]

/-- The dog-specific `pet_specific` list (lines 281–284). -/
def dogCompliments : List String :=
  ["You have that loyal, warm energy that dogs absolutely adore! ðŸ¶",
   "Like a golden retriever\x27s sunshine personality, you light up every room you enter! â˜€ï¸"]

/-- The cat-specific `pet_specific` list (lines 287–290). -/
def catCompliments : List String :=
  ["You have that gentle energy that cats absolutely love - they can sense a kind heart from miles away! ðŸ±",
   "Like the most elegant felines, you have this graceful confidence that\x27s absolutely magnetic! ðŸ˜¸"]

/-- The candidate pool after the preference-specific `extend` calls
(lines 280–291): generic compliments first, then the specific ones. -/
def complimentPool (pref : PetPreference) : List String :=
  baseCompliments ++
    (if pref = PetPreference.DOGS then dogCompliments
     else if pref = PetPreference.CATS then catCompliments
     else [])

/-- Python `xs[-3:]`: the last (at most) `n` entries. -/
def pyLastN (n : Nat) (xs : List String) : List String :=
  xs.drop (xs.length - n)

/-- The `available` list at line 298: the pool without the compliments
among the last 3 received, falling back to the whole pool when that filter
empties it (lines 294–296). -/
def complimentAvail (p : UserProfile) : List String :=
  let recent := pyLastN 3 p.compliments_received
  let f := (complimentPool p.pet_preference).filter
      (fun c => !(recent.contains c))
  if f.isEmpty then complimentPool p.pet_preference else f

/-- `generate_personalized_compliment`: the selected compliment and the
updated profile.  `none` models the `IndexError` that Python
`available[0]` would raise on an empty list (provably unreachable). -/
def generatePersonalizedCompliment (p : UserProfile) :
    Option (String × UserProfile) :=
  (complimentAvail p).head?.map (fun c =>
    (c, { p with compliments_received := p.compliments_received ++ [c] }))

/-! ### Prompt composer and orchestrator (`build_context_prompt` and
`chat`, lines 302–416) -/

/-- The state effect of `build_context_prompt` (lines 302–350).  The
composed prompt text is not modelled — no claim mentions its content — but
the profile mutations it performs are: in `STORY_MODE` it runs
`select_appropriate_story`, in `COMPLIMENT_MODE` it runs
`generate_personalized_compliment`.  `none` propagates the (unreachable)
`IndexError` of compliment selection. -/
def buildContextPrompt (context : ConversationContext) :
    Option ConversationContext :=
  match context.stage with
  | ConversationStage.STORY_MODE =>
    some { context with
           user_profile := (selectAppropriateStory context.user_profile).2 }
  | ConversationStage.COMPLIMENT_MODE =>
    (generatePersonalizedCompliment context.user_profile).map
      (fun cp => { context with user_profile := cp.2 })
  | _ => some context

/-- `fallback_responses` (lines 403–409). -/
def fallbackResponses : List String :=
  ["I\x27m so happy you\x27re chatting with me! Tell me something about yourself - I love getting to know amazing people like you! ðŸ¾",
   "You seem absolutely wonderful! What\x27s your favorite thing about pets? I have so many cute stories to share! âœ¨",
   "There\x27s something so special about you - I can just tell! Want to hear about the sweetest rescue dog story? ðŸ’•",
   "Oh my, you\x27re making me smile already! What kind of furry friends do you love most? ðŸ˜Š",
   "You have such a warm energy - I bet pets absolutely adore you! Tell me about your day? ðŸŒŸ"]

/-- The hard-coded reply of the inner `except` (line 416). -/
def lastResortReply : String :=
  "I\x27m so excited to chat with you! Tell me something about yourself - I love making new friends! ðŸ¾"

/-- `name_part` (line 413): the user name and a comma-space separator
when the name is truthy, otherwise empty. -/
def fallbackNamePart (p : UserProfile) : String :=
  match p.name with
  | some s => if s.length == 0 then "" else s ++ ", "
  | none => ""

/-- The fallback reply of `chat` (lines 411–416):
`fallback_responses[messages_count % len(fallback_responses)]` preceded by
the name part.  The `get?`-miss branch is the inner `except` (line 416),
unreachable since the index is reduced modulo the length. -/
def fallbackReply (context : ConversationContext) : String :=
  match fallbackResponses.get?
      (context.messages_count % fallbackResponses.length) with
  | some r => fallbackNamePart context.user_profile ++ r
  | none => lastResortReply

/-- One turn of `chat` (lines 365–416) on the context of the session.  The
external model call is the `llmReply` parameter: `some text` is a
successful completion, `none` is any exception raised by the call, which
the `except` block turns into the deterministic fallback reply.  Profile
update, stage assignment and the count increment happen before the call,
so they survive a model failure. -/
def chat (context : ConversationContext) (message : String)
    (llmReply : Option String) : String × ConversationContext :=
  let ctx1 := { context with
                user_profile := updateUserProfile context.user_profile message }
  let ctx2 := { ctx1 with stage := determineConversationStage ctx1 message }
  let ctx3 := { ctx2 with messages_count := ctx2.messages_count + 1 }
  match buildContextPrompt ctx3 with
  | some ctx4 =>
    match llmReply with
    | some text => (text, { ctx4 with current_mood := UserMood.ENGAGED })
    | none => (fallbackReply ctx4, ctx4)
  | none => (fallbackReply ctx3, ctx3)

/-! ### Session store (`get_or_create_session`, `get_session_stats`,
`cleanup_session`, lines 156–165 and 418–443)

The Python `active_sessions` dict is modelled as an association list with
unique keys; `del` removes the (unique) entry with the given key.
-/

/-- The `active_sessions` mapping. -/
abbrev SessionTable := List (String × ConversationContext)

/-- Python `active_sessions.get(session_id)` / `in` test. -/
def lookupSession (t : SessionTable) (sid : String) :
    Option ConversationContext :=
  (t.find? (fun e => e.1 == sid)).map (fun e => e.2)

/-- `get_or_create_session` (lines 156–165): return the existing context,
or insert a fresh one (dict insertion appends a new key). -/
def getOrCreateSession (t : SessionTable) (sid : String) :
    ConversationContext × SessionTable :=
  match lookupSession t sid with
  | some c => (c, t)
  | none => (freshContext sid, t ++ [(sid, freshContext sid)])

/-- The record returned by `get_session_stats` (lines 424–434). -/
structure SessionStats where
  session_id : String
  messages_count : Nat
  stage : String
  user_name : Option String
  pet_preference : String
  engagement_level : Int
  stories_heard : Nat
  compliments_received : Nat
  current_mood : String
deriving DecidableEq

/-- `get_session_stats` (lines 418–434): `none` for an unknown id. -/
def getSessionStats (t : SessionTable) (sid : String) : Option SessionStats :=
  match lookupSession t sid with
  | none => none
  | some context =>
    some { session_id := sid
           messages_count := context.messages_count
           stage := stageValue context.stage
           user_name := context.user_profile.name
           pet_preference := prefValue context.user_profile.pet_preference
           engagement_level := context.user_profile.engagement_level
           stories_heard := context.user_profile.stories_heard.length
           compliments_received := context.user_profile.compliments_received.length
           current_mood := moodValue context.current_mood }

/-- `cleanup_session` (lines 436–443): `true` and removal when the id is
present, `false` and no change otherwise. -/
def cleanupSession (t : SessionTable) (sid : String) : Bool × SessionTable :=
  if (lookupSession t sid).isSome then
    (true, t.filter (fun e => !(e.1 == sid)))
  else (false, t)

/-! ### Iterated story selection (for the repetition-avoidance claim) -/

/-- The ids returned by `n` consecutive story selections on one session. -/
def storyRun : Nat → UserProfile → List String
  | 0, _ => []
  | Nat.succ n, p =>
    match selectAppropriateStory p with
    | (some s, p') => s.id :: storyRun n p'
    | (none, _) => []

/-! ## Projection lemmas for the profile-update steps -/

theorem nameStep_pet_preference (p : UserProfile) (m : String) :
    (nameStep p m).pet_preference = p.pet_preference := by
  unfold nameStep
  split
  · split <;> rfl
  · rfl

theorem nameStep_engagement (p : UserProfile) (m : String) :
    (nameStep p m).engagement_level = p.engagement_level := by
  unfold nameStep
  split
  · split <;> rfl
  · rfl

theorem prefStep_name (p : UserProfile) (m : String) :
    (prefStep p m).name = p.name := by
  unfold prefStep
  split
  · rfl
  split
  · rfl
  split
  · rfl
  · rfl

theorem prefStep_engagement (p : UserProfile) (m : String) :
    (prefStep p m).engagement_level = p.engagement_level := by
  unfold prefStep
  split
  · rfl
  split
  · rfl
  split
  · rfl
  · rfl

theorem engagementStep_name (p : UserProfile) (m : String) :
    (engagementStep p m).name = p.name := rfl

theorem updateUserProfile_name (p : UserProfile) (m : String) :
    (updateUserProfile p m).name = (nameStep p m).name := by
  show (engagementStep (prefStep (nameStep p m) m) m).name = _
  rw [engagementStep_name, prefStep_name]

theorem updateUserProfile_engagement (p : UserProfile) (m : String) :
    (updateUserProfile p m).engagement_level =
      max 1 (min 10 (p.engagement_level + engagementBoost m)) := by
  show (engagementStep (prefStep (nameStep p m) m) m).engagement_level = _
  show max 1 (min 10 ((prefStep (nameStep p m) m).engagement_level
      + engagementBoost m)) = _
  rw [prefStep_engagement, nameStep_engagement]

/-! ## Claim theorems -/

/-- C3: for every starting profile and every message (the empty string
included), one `update_user_profile` leaves `engagement_level` within
`1..10`, never raises (the embedding is a total function), and the new
level is the old level plus the boost, clamped to that range. -/
theorem engagement_level_clamped (p : UserProfile) (m : String) :
    1 ≤ (updateUserProfile p m).engagement_level ∧
    (updateUserProfile p m).engagement_level ≤ 10 ∧
    (updateUserProfile p m).engagement_level =
      max 1 (min 10 (p.engagement_level + engagementBoost m)) := by
  rw [updateUserProfile_engagement]
  refine ⟨le_max_left 1 _, ?_, rfl⟩
  exact max_le (by norm_num) (min_le_left _ _)

/-- C8: the pet-preference update is exactly the claimed four-way rule:
dogs when only dog indicators occur in the lower-cased message, cats when
only cat indicators occur, both when both occur, unchanged otherwise. -/
theorem pet_preference_update_rule (p : UserProfile) (m : String) :
    (updateUserProfile p m).pet_preference =
      (if hasDogIndicator m && !hasCatIndicator m then PetPreference.DOGS
       else if hasCatIndicator m && !hasDogIndicator m then PetPreference.CATS
       else if hasDogIndicator m && hasCatIndicator m then PetPreference.BOTH
       else p.pet_preference) := by
  show (prefStep (nameStep p m) m).pet_preference = _
  unfold prefStep
  split
  · rfl
  split
  · rfl
  split
  · rfl
  · exact nameStep_pet_preference p m

/-! ## Chat orchestrator lemmas -/

theorem buildContextPrompt_preserves {c c' : ConversationContext}
    (h : buildContextPrompt c = some c') :
    c'.stage = c.stage ∧ c'.messages_count = c.messages_count := by
  unfold buildContextPrompt at h
  split at h
  · cases h; exact ⟨rfl, rfl⟩
  · rcases Option.map_eq_some'.mp h with ⟨cp, _, rfl⟩
    exact ⟨rfl, rfl⟩
  · cases h; exact ⟨rfl, rfl⟩

theorem chat_snd_stage (c : ConversationContext) (m : String)
    (llm : Option String) :
    (chat c m llm).2.stage =
      determineConversationStage
        { c with user_profile := updateUserProfile c.user_profile m } m := by
  unfold chat
  dsimp only
  split
  · rename_i ctx4 hb
    have hp := buildContextPrompt_preserves hb
    cases llm
    · exact hp.1
    · exact hp.1
  · rfl

theorem chat_snd_count (c : ConversationContext) (m : String)
    (llm : Option String) :
    (chat c m llm).2.messages_count = c.messages_count + 1 := by
  unfold chat
  dsimp only
  split
  · rename_i ctx4 hb
    have hp := buildContextPrompt_preserves hb
    cases llm
    · exact hp.2
    · exact hp.2
  · rfl

theorem chat_fst_none (c : ConversationContext) (m : String) :
    (chat c m none).1 = fallbackReply (chat c m none).2 := by
  unfold chat
  dsimp only
  split
  · rfl
  · rfl

theorem append_ne_empty_right (s r : String) (hr : r ≠ "") : s ++ r ≠ "" := by
  intro h
  apply hr
  have hd := congrArg String.data h
  rw [String.data_append] at hd
  exact String.ext (List.append_eq_nil.mp hd).2

theorem fallbackReply_spec (ctx : ConversationContext) :
    fallbackReply ctx = fallbackNamePart ctx.user_profile ++
      fallbackResponses.getD (ctx.messages_count % 5) "" ∧
    fallbackReply ctx ≠ "" := by
  have hlen : fallbackResponses.length = 5 := rfl
  have hk : ctx.messages_count % 5 < 5 := Nat.mod_lt _ (by norm_num)
  have hget : fallbackResponses.get? (ctx.messages_count % 5) =
      some (fallbackResponses.getD (ctx.messages_count % 5) "") := by
    set k := ctx.messages_count % 5 with hkdef
    clear_value k
    interval_cases k <;> rfl
  have hne : fallbackResponses.getD (ctx.messages_count % 5) "" ≠ "" := by
    set k := ctx.messages_count % 5 with hkdef
    clear_value k
    interval_cases k <;> decide
  unfold fallbackReply
  rw [hlen, hget]
  exact ⟨rfl, append_ne_empty_right _ _ hne⟩

/-! ## Claim theorems for the orchestrator -/

/-- C1: when the external model call fails (modelled by `llmReply = none`),
`chat` still returns a string — the embedding is total, so this turn never
raises — namely `fallback_responses[messages_count % 5]` preceded by the
user name and a comma-space separator when the name is known
(`fallbackNamePart`); the reply is non-empty, and `messages_count` has
still increased by exactly 1 for the turn (the count at fallback time is
the already-incremented one). -/
theorem chat_model_failure_fallback (c : ConversationContext) (m : String) :
    (chat c m none).2.messages_count = c.messages_count + 1 ∧
    (chat c m none).1 =
      fallbackNamePart (chat c m none).2.user_profile ++
        fallbackResponses.getD ((chat c m none).2.messages_count % 5) "" ∧
    (chat c m none).1 ≠ "" := by
  refine ⟨chat_snd_count c m none, ?_, ?_⟩
  · rw [chat_fst_none]; exact (fallbackReply_spec _).1
  · rw [chat_fst_none]; exact (fallbackReply_spec _).2

/-- C2: the stage stored by a `chat` turn is the claimed priority rule
evaluated on the pre-increment `messages_count` and on the name as left by
this turn's profile update, and `messages_count` is incremented by exactly
1 (after the stage was assigned; the stored stage depends on the
pre-increment count). -/
theorem chat_stage_selection_rule (c : ConversationContext) (m : String)
    (llm : Option String) :
    (chat c m llm).2.stage =
      (if nameUnset (updateUserProfile c.user_profile m).name
          && decide (c.messages_count < 3) then ConversationStage.GETTING_NAME
       else if c.messages_count < 5 then ConversationStage.BUILDING_RAPPORT
       else if c.messages_count % 6 = 0 then ConversationStage.STORY_MODE
       else if c.messages_count % 4 = 0 then ConversationStage.COMPLIMENT_MODE
       else ConversationStage.INTERACTIVE_MODE) ∧
    (chat c m llm).2.messages_count = c.messages_count + 1 := by
  refine ⟨?_, chat_snd_count c m llm⟩
  rw [chat_snd_stage]
  rfl

/-- C10: the message `"time flies"` carries no naming intent, yet name
extraction fires: the cue `"im"` (offset 1) occurs as a substring of the
ordinary word `"time"`, so the following word is accepted and the name
becomes `"Flies"`. -/
theorem im_substring_sets_name_from_time_flies :
    (updateUserProfile freshUserProfile "time flies").name = some "Flies" := by
  rfl

/-- C4 (code evaluated at the failing input): the canonical naming message
`"My name is Sarah"` does NOT set the name.  The scan at lines 184–185
looks for a single word that contains every word of the cue phrase as a
substring, and no word of this message contains both `"name"` and `"is"`;
every other cue is absent, so the name stays unset, contradicting the
claimed behavior (and spec §4.2, which reads the cue position + offset
rule as matching this message). -/
theorem name_extraction_misses_name_is_cue :
    (updateUserProfile freshUserProfile "My name is Sarah").name = none := by
  rfl

/-! ## Name persistence (C7) -/

theorem tryNamePattern_length {ml : String} {ws : List String} {pat : String}
    {off : Nat} {s : String}
    (h : tryNamePattern ml ws pat off = some s) : 1 < s.length := by
  unfold tryNamePattern at h
  split at h
  · split at h
    · split at h
      · dsimp only at h
        split at h
        · rename_i hcond
          cases h
          exact hcond.1
        · cases h
      · cases h
    · cases h
  · cases h

theorem extractNameLoop_length : ∀ (pats : List (String × Nat)) (ml : String)
    (ws : List String) (s : String),
    extractNameLoop ml ws pats = some s → 1 < s.length := by
  intro pats
  induction pats with
  | nil =>
    intro ml ws s h
    exact Option.noConfusion h
  | cons hd tl ih =>
    intro ml ws s h
    obtain ⟨pat, off⟩ := hd
    unfold extractNameLoop at h
    split at h
    · rename_i n hn
      cases h
      exact tryNamePattern_length hn
    · exact ih ml ws s h

theorem extractName_length {m s : String} (h : extractName m = some s) :
    1 < s.length :=
  extractNameLoop_length _ _ _ _ h

theorem nameUnset_false_of_long {s : String} (h : 1 < s.length) :
    nameUnset (some s) = false := by
  unfold nameUnset
  simp
  omega

theorem updateUserProfile_keeps_name (p : UserProfile) (m : String) {s : String}
    (h : p.name = some s) (hl : 1 < s.length) :
    (updateUserProfile p m).name = some s := by
  rw [updateUserProfile_name]
  unfold nameStep
  rw [h, nameUnset_false_of_long hl]
  simp [h]

theorem updateUserProfile_name_inv (p : UserProfile) (m : String)
    (h : p.name = none ∨ ∃ s, p.name = some s ∧ 1 < s.length) :
    (updateUserProfile p m).name = none ∨
      ∃ s, (updateUserProfile p m).name = some s ∧ 1 < s.length := by
  rw [updateUserProfile_name]
  unfold nameStep
  split
  · cases hx : extractName m with
    | none => exact h
    | some n => exact Or.inr ⟨n, rfl, extractName_length hx⟩
  · exact h

theorem applyMessages_name_inv (msgs : List String) : ∀ (p : UserProfile),
    (p.name = none ∨ ∃ s, p.name = some s ∧ 1 < s.length) →
    ((applyMessages p msgs).name = none ∨
      ∃ s, (applyMessages p msgs).name = some s ∧ 1 < s.length) := by
  induction msgs with
  | nil => intro p h; exact h
  | cons m rest ih =>
    intro p h
    exact ih (updateUserProfile p m) (updateUserProfile_name_inv p m h)

/-- C7: on any profile reachable from a fresh session by a sequence of
profile updates, once the name is set to some value, one further
`update_user_profile` with any message leaves it unchanged (the extractor
only runs when the name is falsy, and every extracted name has length
> 1, hence is truthy). -/
theorem name_idempotent_after_set (msgs : List String) (m : String)
    (s : String)
    (h : (applyMessages freshUserProfile msgs).name = some s) :
    (updateUserProfile (applyMessages freshUserProfile msgs) m).name
      = some s := by
  rcases applyMessages_name_inv msgs freshUserProfile (Or.inl rfl) with
    h0 | ⟨t, ht, hl⟩
  · rw [h0] at h; cases h
  · rw [ht] at h
    cases h
    exact updateUserProfile_keeps_name _ m ht hl

/-- Witness for C7: after `"im Bob"` (the `"im"` cue) sets the name, a
later explicit naming message does not change it. -/
theorem name_idempotent_after_set_witness :
    (applyMessages freshUserProfile ["im Bob"]).name = some "Bob" ∧
    (updateUserProfile (applyMessages freshUserProfile ["im Bob"])
        "call me Alexandra").name = some "Bob" :=
  ⟨rfl, name_idempotent_after_set ["im Bob"] "call me Alexandra" "Bob" rfl⟩

/-! ## Compliment selection (C6) -/

theorem complimentPool_nodup (pref : PetPreference) :
    (complimentPool pref).Nodup := by
  cases pref <;> decide

theorem complimentPool_length (pref : PetPreference) :
    7 ≤ (complimentPool pref).length := by
  cases pref <;> decide

theorem pyLastN_le (n : Nat) (xs : List String) :
    (pyLastN n xs).length ≤ n := by
  unfold pyLastN
  rw [List.length_drop]
  omega

theorem exists_fresh_compliment (p : UserProfile) :
    ∃ c ∈ complimentPool p.pet_preference,
      c ∉ pyLastN 3 p.compliments_received := by
  by_contra hc
  push_neg at hc
  have hsub : complimentPool p.pet_preference ⊆
      pyLastN 3 p.compliments_received := fun c hcs => hc c hcs
  have hlen := ((complimentPool_nodup p.pet_preference).subperm hsub).length_le
  have h7 := complimentPool_length p.pet_preference
  have h3 := pyLastN_le 3 p.compliments_received
  omega

/-- C6: compliment selection always succeeds; the pool is the 7 generic
compliments followed by the preference-specific ones for dogs or cats;
the selected compliment is the head of the pool filtered against the last
3 received compliments (the fallback to the unfiltered pool is never
taken, since the pool always holds a compliment outside those 3), so it
differs from each of the last 3; exactly that compliment is appended to
`compliments_received`. -/
theorem compliment_selection_spec (p : UserProfile) :
    ∃ c p', generatePersonalizedCompliment p = some (c, p') ∧
      c ∉ pyLastN 3 p.compliments_received ∧
      p'.compliments_received = p.compliments_received ++ [c] ∧
      (complimentAvail p).head? = some c ∧
      complimentPool p.pet_preference =
        baseCompliments ++
          (if p.pet_preference = PetPreference.DOGS then dogCompliments
           else if p.pet_preference = PetPreference.CATS then catCompliments
           else []) := by
  obtain ⟨c0, hc0pool, hc0rec⟩ := exists_fresh_compliment p
  have hfne : (complimentPool p.pet_preference).filter
      (fun c => !((pyLastN 3 p.compliments_received).contains c)) ≠ [] :=
    List.ne_nil_of_mem (List.mem_filter.mpr ⟨hc0pool, by simpa using hc0rec⟩)
  have havail : complimentAvail p =
      (complimentPool p.pet_preference).filter
        (fun c => !((pyLastN 3 p.compliments_received).contains c)) := by
    unfold complimentAvail
    dsimp only
    split
    · rename_i hemp
      exact absurd (List.isEmpty_iff.mp hemp) hfne
    · rfl
  obtain ⟨c, t, hct⟩ : ∃ c t, complimentAvail p = c :: t := by
    rcases hl : complimentAvail p with _ | ⟨a, b⟩
    · rw [havail] at hl
      exact absurd hl hfne
    · exact ⟨a, b, rfl⟩
  have hcmem : c ∈ (complimentPool p.pet_preference).filter
      (fun c => !((pyLastN 3 p.compliments_received).contains c)) := by
    rw [← havail, hct]
    exact List.mem_cons_self c t
  have hpred := (List.mem_filter.mp hcmem).2
  refine ⟨c, { p with compliments_received := p.compliments_received ++ [c] },
    ?_, ?_, rfl, ?_, rfl⟩
  · unfold generatePersonalizedCompliment
    rw [hct]
    rfl
  · simpa using hpred
  · rw [hct]
    rfl

/-! ## Session store (C9) -/

theorem lookup_filter_ne (t : SessionTable) (sid : String) :
    lookupSession (t.filter (fun e => !(e.1 == sid))) sid = none := by
  have hall : ∀ x ∈ t.filter (fun e : String × ConversationContext =>
      !(e.1 == sid)), ¬ ((x.1 == sid) = true) := by
    intro x hx
    have hp := (List.mem_filter.mp hx).2
    simp only [Bool.not_eq_true'] at hp
    simp [hp]
  unfold lookupSession
  rw [List.find?_eq_none.mpr hall]
  rfl

theorem lookup_append_self (t : SessionTable) (sid : String)
    (c : ConversationContext) (h : lookupSession t sid = none) :
    lookupSession (t ++ [(sid, c)]) sid = some c := by
  unfold lookupSession at h ⊢
  have hfind : t.find? (fun e => e.1 == sid) = none := by
    cases hx : t.find? (fun e => e.1 == sid)
    · rfl
    · rw [hx] at h
      simp at h
  rw [List.find?_append, hfind]
  simp

/-- C9: `cleanup_session` returns `true` exactly when a session with the
given id exists; after a `true` return the session is removed
(`get_session_stats` answers absent) until `get_or_create_session`
recreates it (after which stats are present again); on an unknown id it
returns `false` and leaves the table unchanged. -/
theorem cleanup_session_spec (t : SessionTable) (sid : String) :
    ((cleanupSession t sid).1 = true ↔
      (getSessionStats t sid).isSome = true) ∧
    ((cleanupSession t sid).1 = true →
      getSessionStats (cleanupSession t sid).2 sid = none ∧
      (getSessionStats ((getOrCreateSession (cleanupSession t sid).2 sid).2)
          sid).isSome = true) ∧
    ((cleanupSession t sid).1 = false →
      (cleanupSession t sid).2 = t ∧ getSessionStats t sid = none) := by
  cases hl : lookupSession t sid with
  | none =>
    have hc : cleanupSession t sid = (false, t) := by
      unfold cleanupSession
      rw [hl]
      rfl
    have hs : getSessionStats t sid = none := by
      unfold getSessionStats
      rw [hl]
    rw [hc, hs]
    refine ⟨by simp, by simp, fun _ => ⟨rfl, rfl⟩⟩
  | some c =>
    have hc : cleanupSession t sid =
        (true, t.filter (fun e => !(e.1 == sid))) := by
      unfold cleanupSession
      rw [hl]
      rfl
    have h1 := lookup_filter_ne t sid
    have h2 : getSessionStats (t.filter (fun e => !(e.1 == sid))) sid
        = none := by
      unfold getSessionStats
      rw [h1]
    have hgo : getOrCreateSession (t.filter (fun e => !(e.1 == sid))) sid =
        (freshContext sid,
         t.filter (fun e => !(e.1 == sid)) ++ [(sid, freshContext sid)]) := by
      unfold getOrCreateSession
      rw [h1]
    have h3 : lookupSession
        (t.filter (fun e => !(e.1 == sid)) ++ [(sid, freshContext sid)]) sid
        = some (freshContext sid) :=
      lookup_append_self _ sid (freshContext sid) h1
    have h4 : (getSessionStats
        (t.filter (fun e => !(e.1 == sid)) ++ [(sid, freshContext sid)])
        sid).isSome = true := by
      unfold getSessionStats
      rw [h3]
      rfl
    have hs : getSessionStats t sid ≠ none := by
      unfold getSessionStats
      rw [hl]
      simp
    rw [hc]
    refine ⟨?_, fun _ => ⟨h2, ?_⟩, by simp⟩
    · simp only [true_iff]
      cases hx : getSessionStats t sid
      · exact absurd hx hs
      · rfl
    · rw [hgo]
      exact h4

/-- Witness for C9 at a concrete one-entry table. -/
theorem cleanup_session_spec_witness :
    (cleanupSession [("a", freshContext "a")] "a").1 = true ∧
    getSessionStats (cleanupSession [("a", freshContext "a")] "a").2 "a"
      = none ∧
    (cleanupSession [("b", freshContext "b")] "a").1 = false ∧
    (cleanupSession [("b", freshContext "b")] "a").2
      = [("b", freshContext "b")] := by
  have h1 := cleanup_session_spec [("a", freshContext "a")] "a"
  have h2 := cleanup_session_spec [("b", freshContext "b")] "a"
  have ht : (cleanupSession [("a", freshContext "a")] "a").1 = true := by rfl
  have hf : (cleanupSession [("b", freshContext "b")] "a").1 = false := by rfl
  exact ⟨ht, (h1.2.1 ht).1, hf, (h2.2.2 hf).1⟩

/-! ## Story selection (C5) -/

theorem narrowBy_subset (l : List Story) (pred : Story → Bool) :
    narrowBy l pred ⊆ l := by
  unfold narrowBy
  dsimp only
  split
  · exact fun x h => h
  · exact (List.filter_sublist l).subset

theorem narrowBy_sublist (l : List Story) (pred : Story → Bool) :
    List.Sublist (narrowBy l pred) l := by
  unfold narrowBy
  dsimp only
  split
  · exact List.Sublist.refl l
  · exact List.filter_sublist l

theorem narrowBy_ne_nil (l : List Story) (pred : Story → Bool) (h : l ≠ []) :
    narrowBy l pred ≠ [] := by
  unfold narrowBy
  dsimp only
  split
  · exact h
  · rename_i hne
    intro hnil
    exact hne (by rw [hnil]; rfl)

theorem prefNarrow_subset (pref : PetPreference) (l : List Story) :
    prefNarrow pref l ⊆ l := by
  unfold prefNarrow
  split
  · exact narrowBy_subset l _
  split
  · exact narrowBy_subset l _
  · exact fun x h => h

theorem prefNarrow_sublist (pref : PetPreference) (l : List Story) :
    List.Sublist (prefNarrow pref l) l := by
  unfold prefNarrow
  split
  · exact narrowBy_sublist l _
  split
  · exact narrowBy_sublist l _
  · exact List.Sublist.refl l

theorem prefNarrow_ne_nil (pref : PetPreference) (l : List Story)
    (h : l ≠ []) : prefNarrow pref l ≠ [] := by
  unfold prefNarrow
  split
  · exact narrowBy_ne_nil l _ h
  split
  · exact narrowBy_ne_nil l _ h
  · exact h

theorem engagementNarrow_subset (eng : Int) (l : List Story) :
    engagementNarrow eng l ⊆ l := by
  unfold engagementNarrow
  split
  · exact narrowBy_subset l _
  · exact fun x h => h

theorem engagementNarrow_sublist (eng : Int) (l : List Story) :
    List.Sublist (engagementNarrow eng l) l := by
  unfold engagementNarrow
  split
  · exact narrowBy_sublist l _
  · exact List.Sublist.refl l

theorem engagementNarrow_ne_nil (eng : Int) (l : List Story) (h : l ≠ []) :
    engagementNarrow eng l ≠ [] := by
  unfold engagementNarrow
  split
  · exact narrowBy_ne_nil l _ h
  · exact h

theorem storyIds_nodup : storyIds.Nodup := by decide

theorem unheard_ne_nil_of_exists {p : UserProfile}
    (h : ∃ s ∈ petStories, s.id ∉ p.stories_heard) :
    unheardStories p ≠ [] := by
  obtain ⟨s, hs, hns⟩ := h
  exact List.ne_nil_of_mem
    (List.mem_filter.mpr ⟨hs, by simpa using hns⟩)

theorem storyCandidates_subset_unheard (p : UserProfile)
    (h : unheardStories p ≠ []) :
    storyCandidates p ⊆ unheardStories p := by
  unfold storyCandidates
  dsimp only
  rw [if_neg (fun he => h (List.isEmpty_iff.mp he))]
  exact fun x hx =>
    prefNarrow_subset _ _ (engagementNarrow_subset _ _ hx)

theorem storyCandidates_subset_library (p : UserProfile) :
    storyCandidates p ⊆ petStories := by
  unfold storyCandidates
  dsimp only
  intro x hx
  have hx1 := prefNarrow_subset _ _ (engagementNarrow_subset _ _ hx)
  revert hx1
  split
  · exact fun h => h
  · exact fun h => (List.filter_sublist _).subset h

theorem storyCandidates_ne_nil (p : UserProfile) :
    storyCandidates p ≠ [] := by
  unfold storyCandidates
  dsimp only
  apply engagementNarrow_ne_nil
  apply prefNarrow_ne_nil
  split
  · exact (by decide : petStories ≠ [])
  · rename_i h
    intro hnil
    exact h (by rw [hnil]; rfl)

theorem select_step (p : UserProfile) (hne : unheardStories p ≠ []) :
    ∃ s, selectAppropriateStory p =
        (some s, { p with stories_heard := p.stories_heard ++ [s.id] }) ∧
      s.id ∉ p.stories_heard ∧ s ∈ petStories := by
  obtain ⟨s, t, hst⟩ : ∃ s t, storyCandidates p = s :: t := by
    rcases hx : storyCandidates p with _ | ⟨a, b⟩
    · exact absurd hx (storyCandidates_ne_nil p)
    · exact ⟨a, b, rfl⟩
  have hmem : s ∈ storyCandidates p := by
    rw [hst]; exact List.mem_cons_self s t
  have hsfilter := List.mem_filter.mp (storyCandidates_subset_unheard p hne hmem)
  have hnotin : s.id ∉ p.stories_heard := by simpa using hsfilter.2
  refine ⟨s, ?_, hnotin, hsfilter.1⟩
  unfold selectAppropriateStory
  dsimp only
  rw [hst, if_neg (fun he => hne (List.isEmpty_iff.mp he))]
  rfl

theorem select_reset (q : UserProfile)
    (hall : ∀ s ∈ petStories, s.id ∈ q.stories_heard) :
    ∃ s ∈ petStories, selectAppropriateStory q =
      (some s, { q with stories_heard := [s.id] }) := by
  have hemp : unheardStories q = [] := by
    unfold unheardStories
    rw [List.filter_eq_nil_iff]
    intro s hs
    simpa using hall s hs
  obtain ⟨s, t, hst⟩ : ∃ s t, storyCandidates q = s :: t := by
    rcases hx : storyCandidates q with _ | ⟨a, b⟩
    · exact absurd hx (storyCandidates_ne_nil q)
    · exact ⟨a, b, rfl⟩
  have hmem : s ∈ petStories :=
    storyCandidates_subset_library q (by rw [hst]; exact List.mem_cons_self s t)
  refine ⟨s, hmem, ?_⟩
  unfold selectAppropriateStory
  dsimp only
  rw [hst, if_pos (by rw [hemp]; rfl)]
  rfl

theorem storyRun_nodup_aux : ∀ (n : Nat) (p : UserProfile),
    p.stories_heard.Nodup →
    (∀ x ∈ p.stories_heard, x ∈ storyIds) →
    p.stories_heard.length + n ≤ 7 →
    (storyRun n p).Nodup ∧
      ∀ x ∈ storyRun n p, x ∉ p.stories_heard ∧ x ∈ storyIds := by
  intro n
  induction n with
  | zero =>
    intro p _ _ _
    simp [storyRun]
  | succ n ih =>
    intro p hnd hsub hlen
    have hex : ∃ s ∈ petStories, s.id ∉ p.stories_heard := by
      by_contra hcon
      push_neg at hcon
      have hids : storyIds ⊆ p.stories_heard := by
        intro x hx
        obtain ⟨s, hs, rfl⟩ := List.mem_map.mp hx
        exact hcon s hs
      have hle := (storyIds_nodup.subperm hids).length_le
      have h7 : storyIds.length = 7 := by decide
      omega
    obtain ⟨s, hsel, hnotin, hsmem⟩ := select_step p (unheard_ne_nil_of_exists hex)
    have hnd' : (p.stories_heard ++ [s.id]).Nodup := by
      rw [List.nodup_append]
      refine ⟨hnd, List.nodup_singleton _, fun b hb hbs => ?_⟩
      simp only [List.mem_singleton] at hbs
      exact hnotin (hbs ▸ hb)
    have hsub' : ∀ x ∈ p.stories_heard ++ [s.id], x ∈ storyIds := by
      intro x hx
      rcases List.mem_append.mp hx with hx' | hx'
      · exact hsub x hx'
      · simp only [List.mem_singleton] at hx'
        exact hx' ▸ List.mem_map.mpr ⟨s, hsmem, rfl⟩
    have hlen' : (p.stories_heard ++ [s.id]).length + n ≤ 7 := by
      rw [List.length_append]
      simp only [List.length_singleton]
      omega
    have ihres := ih { p with stories_heard := p.stories_heard ++ [s.id] }
      hnd' hsub' hlen'
    have hrun : storyRun (n + 1) p =
        s.id :: storyRun n { p with stories_heard := p.stories_heard ++ [s.id] } := by
      show (match selectAppropriateStory p with
            | (some s, p') => s.id :: storyRun n p'
            | (none, _) => []) = _
      rw [hsel]
    rw [hrun]
    constructor
    · rw [List.nodup_cons]
      refine ⟨fun hmem => ?_, ihres.1⟩
      exact (ihres.2 _ hmem).1
        (List.mem_append_right _ (List.mem_singleton.mpr rfl))
    · intro x hx
      rcases List.mem_cons.mp hx with rfl | hx'
      · exact ⟨hnotin, List.mem_map.mpr ⟨s, hsmem, rfl⟩⟩
      · obtain ⟨hn1, hn2⟩ := ihres.2 x hx'
        exact ⟨fun hxin => hn1 (List.mem_append_left _ hxin), hn2⟩

/-- C5: starting from a session whose `stories_heard` is empty, up to 7
consecutive story selections never repeat a story id (the library holds 7
stories); once every id has been heard, the next selection resets
`stories_heard` and restarts from the full library, leaving exactly the
newly selected id recorded; the selection always returns the head of the
candidate list, the candidates are a sublist of the library (library
order), and each narrowing keeps the broader list exactly when its filter
comes up empty. -/
theorem story_selection_no_repeat (p : UserProfile) (n : Nat)
    (h0 : p.stories_heard = []) (hn : n ≤ 7) :
    (storyRun n p).Nodup ∧
    (∀ q : UserProfile, (∀ s ∈ petStories, s.id ∈ q.stories_heard) →
      ∃ s ∈ petStories, selectAppropriateStory q =
        (some s, { q with stories_heard := [s.id] })) ∧
    (∀ q : UserProfile,
      (selectAppropriateStory q).1 = (storyCandidates q).head?) ∧
    (∀ (l : List Story) (pred : Story → Bool),
      ((l.filter pred).isEmpty = true → narrowBy l pred = l) ∧
      ((l.filter pred).isEmpty = false → narrowBy l pred = l.filter pred)) ∧
    (∀ q : UserProfile, List.Sublist (storyCandidates q) petStories) := by
  refine ⟨?_, fun q hall => select_reset q hall, ?_, ?_, ?_⟩
  · have haux := storyRun_nodup_aux n p (by rw [h0]; exact List.nodup_nil)
      (by rw [h0]; intro x hx; cases hx) (by rw [h0]; simpa using hn)
    exact haux.1
  · intro q
    unfold selectAppropriateStory
    dsimp only
    cases hx : (storyCandidates q).head?
    · rfl
    · rfl
  · intro l pred
    constructor
    · intro h
      unfold narrowBy
      dsimp only
      rw [if_pos h]
    · intro h
      unfold narrowBy
      dsimp only
      rw [if_neg (by simp [h])]
  · intro q
    unfold storyCandidates
    dsimp only
    refine (engagementNarrow_sublist _ _).trans
      ((prefNarrow_sublist _ _).trans ?_)
    split
    · exact List.Sublist.refl _
    · exact List.filter_sublist _

/-- Witness for C5: the run of 7 selections on a fresh profile has no
duplicate ids, and a profile that has heard all 7 ids triggers the
reset. -/
theorem story_selection_no_repeat_witness :
    (storyRun 7 freshUserProfile).Nodup ∧
    ∃ s ∈ petStories,
      selectAppropriateStory
          { freshUserProfile with stories_heard := storyIds } =
        (some s, { { freshUserProfile with stories_heard := storyIds } with
                   stories_heard := [s.id] }) := by
  have h := story_selection_no_repeat freshUserProfile 7 rfl (by norm_num)
  exact ⟨h.1, h.2.1 { freshUserProfile with stories_heard := storyIds }
    (by decide)⟩

end PetPal
